import Mathlib

/-!
Verification of the baby-tracker application core against its specification.

The definitions below are a shallow embedding of the TypeScript source:

* `TimerState`, `getElapsedSeconds`, `startTimer`, `pauseTimer`, `resetTimer`,
  `toggleSide` embed `src/TimerContext.tsx`.  Wall-clock instants are modelled
  as `Int` milliseconds (the value of `Date.now()`); `Math.floor(x / 1000)` on
  an integer difference is `Int.fdiv _ 1000` (floor division).
* `FeedRecord`, `dbToFeedRecord`, `feedRecordToDb` embed `src/types.ts` and
  `src/services/database.ts` (the persistence adapter's field translation).
* `addRecordOptimistic` / `addRecordResolved` embed `addRecord` in
  `src/App.tsx` (optimistic create followed by id reconciliation).
* `chartData` aggregation and `ageLabel` embed the derived statistics in
  `StatsView` / `GrowthView`.
* `handleSaveTimer` embeds the timer-save action of `HomeView`.
-/

namespace BabyTracker

/-- The nursing side selector, the TS union type `'left' | 'right'`. -/
inductive Side where
  | left
  | right
deriving DecidableEq, Repr

/-- Embeds the `prev === 'left' ? 'right' : 'left'` update of `toggleSide`. -/
def flipSide : Side → Side
  | Side.left => Side.right
  | Side.right => Side.left

/-- Embedding of the timer state held by `TimerProvider` in
`src/TimerContext.tsx`: `isRunning`, `startTimestamp` (nullable epoch
milliseconds), `pausedSeconds` (the accumulated seconds of completed run
segments) and `selectedSide`. -/
structure TimerState where
  isRunning : Bool
  startTimestamp : Option Int
  pausedSeconds : Int
  selectedSide : Side
deriving DecidableEq, Repr

/-- Embedding of `getElapsedSeconds` (`src/TimerContext.tsx` lines 63-68):
`if (!isRunning || startTimestamp === null) return pausedSeconds;
return pausedSeconds + Math.floor((Date.now() - startTimestamp) / 1000);`,
with `now` passed explicitly in place of `Date.now()`. -/
def getElapsedSeconds (now : Int) (s : TimerState) : Int :=
  match s.isRunning, s.startTimestamp with
  | true, some ts => s.pausedSeconds + (now - ts).fdiv 1000
  | true, none => s.pausedSeconds
  | false, _ => s.pausedSeconds

/-- The elapsed-seconds query as a state transaction: the React callback only
reads the state, so it returns the state unchanged.  Makes the absence of
mutation explicit in the embedding. -/
def getElapsedSecondsCall (now : Int) (s : TimerState) : Int × TimerState :=
  (getElapsedSeconds now s, s)

/-- Embedding of `startTimer` (lines 96-101): only acts when not running,
records `startTimestamp = Date.now()` and sets running. -/
def startTimer (now : Int) (s : TimerState) : TimerState :=
  if s.isRunning then s
  else { s with isRunning := true, startTimestamp := some now }

/-- Embedding of `pauseTimer` (lines 103-111): only acts when running with a
non-null start timestamp; folds the completed segment into `pausedSeconds`. -/
def pauseTimer (now : Int) (s : TimerState) : TimerState :=
  match s.startTimestamp with
  | some ts =>
      if s.isRunning then
        { s with
          isRunning := false
          startTimestamp := none
          pausedSeconds := s.pausedSeconds + (now - ts).fdiv 1000 }
      else s
  | none => s

/-- Embedding of `resetTimer` (lines 113-117). -/
def resetTimer (s : TimerState) : TimerState :=
  { s with isRunning := false, startTimestamp := none, pausedSeconds := 0 }

/-- Embedding of `toggleSide` (lines 124-126). -/
def toggleSide (s : TimerState) : TimerState :=
  { s with selectedSide := flipSide s.selectedSide }

/-- The state the provider starts from when nothing was persisted:
not running, no start timestamp, zero accumulated seconds, left side. -/
def initialTimerState : TimerState :=
  { isRunning := false, startTimestamp := none, pausedSeconds := 0,
    selectedSide := Side.left }

/-- C1: `getElapsedSeconds` is a pure query: it leaves the state untouched,
returns `pausedSeconds` when the timer is not running, and
`pausedSeconds + floor((now - startTimestamp) / 1000)` when it is running. -/
theorem elapsed_pure_query (now : Int) (s : TimerState) :
    (getElapsedSecondsCall now s).2 = s
    ∧ (s.isRunning = false → getElapsedSeconds now s = s.pausedSeconds)
    ∧ (∀ ts : Int, s.isRunning = true → s.startTimestamp = some ts →
        getElapsedSeconds now s = s.pausedSeconds + (now - ts).fdiv 1000) := by
  refine ⟨rfl, ?_, ?_⟩
  · intro h
    simp [getElapsedSeconds, h]
  · intro ts hrun hts
    simp [getElapsedSeconds, hrun, hts]

/-- Witness for C1 at a concrete running state and instant. -/
theorem elapsed_pure_query_witness :
    getElapsedSeconds 4500 (TimerState.mk true (some 1000) 7 Side.left)
      = 7 + (4500 - 1000 : Int).fdiv 1000 :=
  (elapsed_pure_query 4500 (TimerState.mk true (some 1000) 7 Side.left)).2.2
    1000 rfl rfl

/-- C8: `resetTimer` unconditionally yields a not-running state with no start
timestamp and zero accumulated seconds, so `elapsed = 0` afterwards, and it
leaves `selectedSide` unchanged. -/
theorem reset_zeroes_timer (s : TimerState) (now : Int) :
    (resetTimer s).isRunning = false
    ∧ (resetTimer s).startTimestamp = none
    ∧ (resetTimer s).pausedSeconds = 0
    ∧ getElapsedSeconds now (resetTimer s) = 0
    ∧ (resetTimer s).selectedSide = s.selectedSide := by
  refine ⟨rfl, rfl, rfl, ?_, rfl⟩
  simp [getElapsedSeconds, resetTimer]

/-- A user interaction with the timer, tagged with the wall-clock instant
(`Date.now()` in milliseconds) at which it happens. -/
inductive TimerEvent where
  | start (t : Int)
  | pause (t : Int)
deriving DecidableEq, Repr

/-- Apply one timer interaction to the state. -/
def applyEvent (s : TimerState) : TimerEvent → TimerState
  | TimerEvent.start t => startTimer t s
  | TimerEvent.pause t => pauseTimer t s

/-- Run a finite sequence of start/pause interactions from a given state. -/
def runTrace (s : TimerState) (es : List TimerEvent) : TimerState :=
  es.foldl applyEvent s

/-- Specification-side segment sum: walking the event list, a `start` while
idle opens a run segment, a `pause` while a segment is open closes it and
contributes `floor((pause time - start time) / 1000)` seconds; a `start`
while already running and a `pause` while idle are ignored; a segment still
open at the end contributes `floor((now - start time) / 1000)`.  The first
argument is the start instant of the currently open segment, if any. -/
def segmentSum : Option Int → List TimerEvent → Int → Int
  | none, [], _ => 0
  | some st, [], now => (now - st).fdiv 1000
  | none, TimerEvent.start t :: rest, now => segmentSum (some t) rest now
  | none, TimerEvent.pause _ :: rest, now => segmentSum none rest now
  | some st, TimerEvent.start _ :: rest, now => segmentSum (some st) rest now
  | some st, TimerEvent.pause t :: rest, now =>
      (t - st).fdiv 1000 + segmentSum none rest now

/-- States reachable by the timer keep `isRunning` in sync with the presence
of a start timestamp. -/
def timerInv (s : TimerState) : Prop :=
  s.isRunning = s.startTimestamp.isSome

theorem timerInv_initial : timerInv initialTimerState := rfl

/-- Generalized invariant: from any state respecting `timerInv`, the elapsed
seconds after a trace equal the already-accumulated seconds plus the segment
sum of the trace (seeded with the currently open segment, if any). -/
theorem elapsed_runTrace (es : List TimerEvent) (now : Int) :
    ∀ s : TimerState, timerInv s →
      getElapsedSeconds now (runTrace s es)
        = s.pausedSeconds + segmentSum s.startTimestamp es now := by
  induction es with
  | nil =>
      intro s hs
      match s with
      | ⟨true, some ts, p, side⟩ => simp [runTrace, getElapsedSeconds, segmentSum]
      | ⟨true, none, p, side⟩ => simp [timerInv] at hs
      | ⟨false, some ts, p, side⟩ => simp [timerInv] at hs
      | ⟨false, none, p, side⟩ => simp [runTrace, getElapsedSeconds, segmentSum]
  | cons e rest ih =>
      intro s hs
      match s, e with
      | ⟨true, some ts, p, side⟩, TimerEvent.start t =>
          have h := ih ⟨true, some ts, p, side⟩ hs
          simpa [runTrace, applyEvent, startTimer, segmentSum] using h
      | ⟨true, some ts, p, side⟩, TimerEvent.pause t =>
          have h := ih ⟨false, none, p + (t - ts).fdiv 1000, side⟩ rfl
          simp [runTrace, applyEvent, pauseTimer, segmentSum] at h ⊢
          omega
      | ⟨true, none, p, side⟩, _ => simp [timerInv] at hs
      | ⟨false, some ts, p, side⟩, _ => simp [timerInv] at hs
      | ⟨false, none, p, side⟩, TimerEvent.start t =>
          have h := ih ⟨true, some t, p, side⟩ rfl
          simpa [runTrace, applyEvent, startTimer, segmentSum] using h
      | ⟨false, none, p, side⟩, TimerEvent.pause t =>
          have h := ih ⟨false, none, p, side⟩ rfl
          simpa [runTrace, applyEvent, pauseTimer, segmentSum] using h

/-- C2: starting from the reset state, for every finite sequence of start and
pause interactions with arbitrary clock instants, the elapsed seconds equal
the sum of the run-segment durations in whole seconds (completed segments
contribute `floor((pause - start) / 1000)`, an in-progress segment
contributes `floor((now - start) / 1000)`); moreover `startTimer` is a no-op
when already running, never resets the accumulated seconds, and `pauseTimer`
is a no-op when not running. -/
theorem trace_elapsed_is_segment_sum :
    (∀ (es : List TimerEvent) (now : Int),
      getElapsedSeconds now (runTrace initialTimerState es)
        = segmentSum none es now)
    ∧ (∀ (s : TimerState) (t : Int), s.isRunning = true → startTimer t s = s)
    ∧ (∀ (s : TimerState) (t : Int),
        (startTimer t s).pausedSeconds = s.pausedSeconds)
    ∧ (∀ (s : TimerState) (t : Int),
        s.isRunning = false → pauseTimer t s = s) := by
  refine ⟨?_, ?_, ?_, ?_⟩
  · intro es now
    simpa [initialTimerState] using
      elapsed_runTrace es now initialTimerState timerInv_initial
  · intro s t h
    simp [startTimer, h]
  · intro s t
    by_cases h : s.isRunning <;> simp [startTimer, h]
  · intro s t h
    match s with
    | ⟨b, some ts, p, side⟩ =>
        simp at h
        simp [pauseTimer, h]
    | ⟨b, none, p, side⟩ => simp [pauseTimer]

/-- Witness for C2: a concrete trace (run 1.5 s, pause, resume at 2 s, read
at 3.7 s) gives 1 + 1 elapsed seconds, and concrete no-op cases. -/
theorem trace_elapsed_is_segment_sum_witness :
    getElapsedSeconds 3700 (runTrace initialTimerState
        [TimerEvent.start 0, TimerEvent.pause 1500, TimerEvent.start 2000])
      = 2
    ∧ startTimer 5 (TimerState.mk true (some 1) 4 Side.left)
        = TimerState.mk true (some 1) 4 Side.left
    ∧ pauseTimer 5 (TimerState.mk false none 4 Side.left)
        = TimerState.mk false none 4 Side.left := by
  refine ⟨?_, ?_, ?_⟩
  · have h := trace_elapsed_is_segment_sum.1
      [TimerEvent.start 0, TimerEvent.pause 1500, TimerEvent.start 2000] 3700
    rw [h]
    decide
  · exact trace_elapsed_is_segment_sum.2.1 _ 5 rfl
  · exact trace_elapsed_is_segment_sum.2.2.2 _ 5 rfl

/-- The snapshot written to `localStorage` by the persist effect
(`src/TimerContext.tsx` lines 48-60): exactly the four state fields. -/
structure TimerSnapshot where
  isRunning : Bool
  startTimestamp : Option Int
  pausedSeconds : Int
  selectedSide : Side
deriving DecidableEq, Repr

/-- Serialization of the timer state: the persist effect stores the four
fields verbatim (`JSON.stringify` of the state object). -/
def persistTimer (s : TimerState) : TimerSnapshot :=
  ⟨s.isRunning, s.startTimestamp, s.pausedSeconds, s.selectedSide⟩

/-- The possible contents of the `timerState` storage slot: nothing stored,
a stored string that fails to parse, or a valid snapshot. -/
inductive StoredTimer where
  | absent
  | corrupt
  | valid (snap : TimerSnapshot)

/-- Embedding of `loadPersistedState` (lines 24-34): returns the parsed
snapshot, or `null` when nothing is stored or `JSON.parse` throws. -/
def loadPersistedState : StoredTimer → Option TimerSnapshot
  | StoredTimer.valid snap => some snap
  | StoredTimer.absent => none
  | StoredTimer.corrupt => none

/-- Embedding of the `useState` initializers (lines 39-42), including the
JavaScript falsy checks: `persistedState?.isRunning || false`,
`persistedState?.startTimestamp || null` (so a stored timestamp of `0` is
turned into `null`), `persistedState?.pausedSeconds || 0`,
`persistedState?.selectedSide || 'left'`. -/
def hydrateTimer : Option TimerSnapshot → TimerState
  | none => ⟨false, none, 0, Side.left⟩
  | some snap =>
      { isRunning := snap.isRunning
        startTimestamp :=
          match snap.startTimestamp with
          | some t => if t = 0 then none else some t
          | none => none
        pausedSeconds := snap.pausedSeconds
        selectedSide := snap.selectedSide }

/-- Initialization of the provider from the storage slot. -/
def rehydrateTimer (st : StoredTimer) : TimerState :=
  hydrateTimer (loadPersistedState st)

/-- Counterexample to C7 as stated: the timer state that is running since
epoch instant 0 with 5 accumulated seconds reads 6 elapsed seconds at
`now = 1000`, but its serialize-rehydrate image reads only 5, because the
`|| null` falsy check maps the stored timestamp `0` to `null`. -/
theorem rehydrate_elapsed_counterexample :
    getElapsedSeconds 1000 (TimerState.mk true (some 0) 5 Side.left) = 6
    ∧ getElapsedSeconds 1000
        (rehydrateTimer (StoredTimer.valid
          (persistTimer (TimerState.mk true (some 0) 5 Side.left)))) = 5 := by
  constructor <;> decide

/-- C7 (amended): for every timer state whose start timestamp is not the
epoch instant `0`, serializing the four fields and rehydrating them yields a
state with the same `elapsed()` at every instant; when no stored snapshot
exists, or the stored snapshot fails to parse, rehydration yields the
all-zero, not-running state. -/
theorem rehydrate_preserves_elapsed (s : TimerState) (now : Int)
    (h : s.startTimestamp ≠ some 0) :
    getElapsedSeconds now (rehydrateTimer (StoredTimer.valid (persistTimer s)))
      = getElapsedSeconds now s
    ∧ rehydrateTimer StoredTimer.absent = ⟨false, none, 0, Side.left⟩
    ∧ rehydrateTimer StoredTimer.corrupt = ⟨false, none, 0, Side.left⟩ := by
  refine ⟨?_, rfl, rfl⟩
  match s with
  | ⟨b, some ts, p, side⟩ =>
      have hts : ts ≠ 0 := by
        intro h0
        exact h (by simp [h0])
      simp [rehydrateTimer, loadPersistedState, persistTimer, hydrateTimer,
        getElapsedSeconds, hts]
  | ⟨b, none, p, side⟩ =>
      simp [rehydrateTimer, loadPersistedState, persistTimer, hydrateTimer,
        getElapsedSeconds]

/-- Witness for C7 at a concrete running state with a nonzero timestamp. -/
theorem rehydrate_preserves_elapsed_witness :
    getElapsedSeconds 9000
        (rehydrateTimer (StoredTimer.valid
          (persistTimer (TimerState.mk true (some 2000) 3 Side.right))))
      = getElapsedSeconds 9000 (TimerState.mk true (some 2000) 3 Side.right) :=
  (rehydrate_preserves_elapsed (TimerState.mk true (some 2000) 3 Side.right)
    9000 (by decide)).1

/-- The record-kind union of `src/types.ts`. -/
inductive RecordType where
  | breast
  | bottle
  | diaper
  | sleep
  | pump
deriving DecidableEq, Repr

/-- Diaper contents kind. -/
inductive DiaperType where
  | wet
  | dirty
  | mixed
deriving DecidableEq, Repr

/-- Diaper amount. -/
inductive DiaperAmount where
  | small
  | medium
  | large
deriving DecidableEq, Repr

/-- Embedding of the `FeedRecord` interface of `src/types.ts`.  Optional
fields are `Option`; numbers are `Int`; ISO timestamp strings stay `String`. -/
structure FeedRecord where
  id : String
  type : RecordType
  startTime : String
  date : String
  note : Option String
  side : Option Side
  durationMinutes : Option Int
  durationSeconds : Option Int
  amountMl : Option Int
  isSnack : Option Bool
  diaperType : Option DiaperType
  diaperAmount : Option DiaperAmount
  endTime : Option String
deriving DecidableEq, Repr

/-- The snake_case row shape of the `feed_records` table, as produced and
consumed by the persistence adapter (`src/services/database.ts`). -/
structure DbFeedRow where
  id : String
  type : RecordType
  start_time : String
  date : String
  note : Option String
  side : Option Side
  duration_minutes : Option Int
  duration_seconds : Option Int
  amount_ml : Option Int
  is_snack : Option Bool
  diaper_type : Option DiaperType
  diaper_amount : Option DiaperAmount
  end_time : Option String
deriving DecidableEq, Repr

/-- Embedding of `feedRecordToDb` (`src/services/database.ts` lines 223-239):
camelCase to snake_case, field for field. -/
def feedRecordToDb (r : FeedRecord) : DbFeedRow :=
  { id := r.id
    type := r.type
    start_time := r.startTime
    date := r.date
    note := r.note
    side := r.side
    duration_minutes := r.durationMinutes
    duration_seconds := r.durationSeconds
    amount_ml := r.amountMl
    is_snack := r.isSnack
    diaper_type := r.diaperType
    diaper_amount := r.diaperAmount
    end_time := r.endTime }

/-- Embedding of `dbToFeedRecord` (lines 204-220): snake_case back to
camelCase.  The source reads `date: row.date || '今天'`, so an empty date
string (the only falsy string) is replaced by the literal `今天`. -/
def dbToFeedRecord (row : DbFeedRow) : FeedRecord :=
  { id := row.id
    type := row.type
    startTime := row.start_time
    date := if row.date = "" then "今天" else row.date
    note := row.note
    side := row.side
    durationMinutes := row.duration_minutes
    durationSeconds := row.duration_seconds
    amountMl := row.amount_ml
    isSnack := row.is_snack
    diaperType := row.diaper_type
    diaperAmount := row.diaper_amount
    endTime := row.end_time }

/-- Counterexample to C4 as stated: a record whose display date label is the
empty string does not survive the round trip; `row.date || '今天'` rewrites
the empty label to `今天`. -/
theorem translate_round_trip_counterexample :
    dbToFeedRecord (feedRecordToDb
        ⟨"r1", RecordType.bottle, "t0", "", none, none, none, none, none,
          none, none, none, none⟩)
      ≠ ⟨"r1", RecordType.bottle, "t0", "", none, none, none, none, none,
          none, none, none, none⟩ := by
  decide

/-- C4 (amended): for every feed record whose display date label is
non-empty, translating to the remote snake_case row shape and back is the
identity on every field. -/
theorem translate_round_trip (r : FeedRecord) (h : r.date ≠ "") :
    dbToFeedRecord (feedRecordToDb r) = r := by
  simp [dbToFeedRecord, feedRecordToDb, h]

/-- Witness for C4 at a record populating every optional field. -/
theorem translate_round_trip_witness :
    dbToFeedRecord (feedRecordToDb
        ⟨"id1", RecordType.breast, "2024-01-01T00:00:00Z", "今天",
          some "note", some Side.left, some 5, some 290, some 100, some true,
          some DiaperType.wet, some DiaperAmount.small, some "2024-01-01T01:00:00Z"⟩)
      = ⟨"id1", RecordType.breast, "2024-01-01T00:00:00Z", "今天",
          some "note", some Side.left, some 5, some 290, some 100, some true,
          some DiaperType.wet, some DiaperAmount.small, some "2024-01-01T01:00:00Z"⟩ :=
  translate_round_trip _ (by decide)

/-- A record with its identifier blanked out; two records agree on all
non-identifier fields exactly when their `eraseId` images are equal. -/
def eraseId (r : FeedRecord) : FeedRecord :=
  { r with id := "" }

/-- Embedding of the synchronous phase of `addRecord` (`src/App.tsx` line
65): `setRecords(prev => [record, ...prev])`. -/
def addRecordOptimistic (record : FeedRecord) (prev : List FeedRecord) :
    List FeedRecord :=
  record :: prev

/-- Embedding of the reconciliation phase of `addRecord` (lines 67-71): when
`createFeedRecord` resolved to a row (`saved ≠ null`) carrying a different
id, every entry still holding the provisional id is replaced by the saved
row; otherwise (failure, or same id) the collection is left as is. -/
def reconcileCreate (record : FeedRecord) (saved : Option FeedRecord)
    (cur : List FeedRecord) : List FeedRecord :=
  match saved with
  | some s =>
      if s.id ≠ record.id then
        cur.map (fun r => if r.id = record.id then s else r)
      else cur
  | none => cur

/-- The collection after `addRecord` has fully resolved: optimistic prepend
followed by id reconciliation against the remote result. -/
def addRecordResolved (record : FeedRecord) (saved : Option FeedRecord)
    (prev : List FeedRecord) : List FeedRecord :=
  reconcileCreate record saved (addRecordOptimistic record prev)

theorem map_replace_of_fresh (s : FeedRecord) (rid : String) :
    ∀ l : List FeedRecord, (∀ r ∈ l, r.id ≠ rid) →
      l.map (fun r => if r.id = rid then s else r) = l := by
  intro l
  induction l with
  | nil => intro _; rfl
  | cons a t ih =>
      intro h
      have ha : a.id ≠ rid := h a (List.mem_cons_self a t)
      have ht : ∀ r ∈ t, r.id ≠ rid := fun r hr => h r (List.mem_cons_of_mem a hr)
      simp [ha, ih ht]

theorem countP_zero_of_none (p : FeedRecord → Bool) :
    ∀ l : List FeedRecord, (∀ r ∈ l, p r = false) → l.countP p = 0 := by
  intro l h
  exact List.countP_eq_zero.mpr (by simpa using h)

/-- C3: creating a feed record with a fresh provisional id prepends it to the
collection synchronously; once resolved, the collection holds exactly one
entity matching all non-identifier fields of the input; when the backend
returned a different authoritative id, exactly one entity carries that id
and none carries the provisional id; when the remote write failed
(`saved = none`), the collection is unchanged from the optimistic state, so
the entity remains under its provisional id. -/
theorem optimistic_create (record : FeedRecord) (saved : Option FeedRecord)
    (prev : List FeedRecord)
    (hfresh : ∀ r ∈ prev, r.id ≠ record.id)
    (hcontent : ∀ r ∈ prev, eraseId r ≠ eraseId record)
    (hsaved : ∀ s, saved = some s →
      eraseId s = eraseId record ∧ ∀ r ∈ prev, r.id ≠ s.id) :
    addRecordOptimistic record prev = record :: prev
    ∧ (addRecordResolved record saved prev).countP
        (fun r => decide (eraseId r = eraseId record)) = 1
    ∧ (∀ s, saved = some s → s.id ≠ record.id →
        (addRecordResolved record saved prev).countP
            (fun r => decide (r.id = s.id)) = 1
        ∧ ∀ r ∈ addRecordResolved record saved prev, r.id ≠ record.id)
    ∧ (saved = none → addRecordResolved record saved prev = record :: prev) := by
  have hprevContent :
      (prev.countP (fun r => decide (eraseId r = eraseId record))) = 0 :=
    countP_zero_of_none _ prev (fun r hr => by simp [hcontent r hr])
  refine ⟨rfl, ?_, ?_, ?_⟩
  · match saved with
    | none =>
        simp [addRecordResolved, reconcileCreate, addRecordOptimistic,
          List.countP_cons, hprevContent]
    | some s =>
        obtain ⟨hs, hids⟩ := hsaved s rfl
        by_cases hid : s.id = record.id
        · simp [addRecordResolved, reconcileCreate, addRecordOptimistic, hid,
            List.countP_cons, hprevContent]
        · have hmap := map_replace_of_fresh s record.id prev hfresh
          simp [addRecordResolved, reconcileCreate, addRecordOptimistic, hid,
            hmap, List.countP_cons, hprevContent, hs]
  · intro s hsome hid
    obtain ⟨hs, hids⟩ := hsaved s hsome
    have hmap := map_replace_of_fresh s record.id prev hfresh
    subst hsome
    have hprevId : (prev.countP (fun r => decide (r.id = s.id))) = 0 :=
      countP_zero_of_none _ prev (fun r hr => by simp [hids r hr])
    constructor
    · simp [addRecordResolved, reconcileCreate, addRecordOptimistic, hid,
        hmap, List.countP_cons, hprevId]
    · intro r hr
      simp only [addRecordResolved, reconcileCreate, addRecordOptimistic,
        ne_eq, hid, not_false_iff, if_true] at hr
      rw [List.map_cons, hmap] at hr
      simp only [if_pos rfl] at hr
      rcases List.mem_cons.mp hr with h1 | h2
      · rw [h1]; exact hid
      · exact hfresh r h2
  · intro hnone
    subst hnone
    rfl

/-- Witness for C3: a concrete create against a one-element collection,
where the simulated backend returns the same content under a new id. -/
theorem optimistic_create_witness :
    List.countP (fun r => decide (r.id = "srv9"))
      (addRecordResolved
        ⟨"tmp1", RecordType.bottle, "t1", "今天", none, none, none, none,
          some 120, some false, none, none, none⟩
        (some ⟨"srv9", RecordType.bottle, "t1", "今天", none, none, none,
          none, some 120, some false, none, none, none⟩)
        [⟨"old1", RecordType.diaper, "t0", "今天", none, none, none, none,
          none, none, some DiaperType.wet, none, none⟩]) = 1 := by
  have h := (optimistic_create
    ⟨"tmp1", RecordType.bottle, "t1", "今天", none, none, none, none,
      some 120, some false, none, none, none⟩
    (some ⟨"srv9", RecordType.bottle, "t1", "今天", none, none, none, none,
      some 120, some false, none, none, none⟩)
    [⟨"old1", RecordType.diaper, "t0", "今天", none, none, none, none, none,
      none, some DiaperType.wet, none, none⟩]
    (by decide) (by decide)
    (fun s hs => by
      rw [Option.some_inj] at hs
      subst hs
      exact ⟨by decide, by decide⟩)).2.2
  exact (h.1 _ rfl (by decide)).1

/-- JavaScript `Math.round (a / b)` for integers `a` and positive `b`:
round half toward positive infinity, i.e. `floor(a / b + 1 / 2)`. -/
def jsRound (a b : Int) : Int :=
  (2 * a + b).fdiv (2 * b)

/-- The per-record part of the `chartData` day filter
(`StatsView`, `src/unnamed/part_003` lines 132-134):
`r.type === 'bottle' && !r.isSnack` (an absent snack flag is falsy). -/
def bottleNonSnack (r : FeedRecord) : Bool :=
  decide (r.type = RecordType.bottle) && !(r.isSnack.getD false)

/-- The full `chartData` day filter: bottle kind, same calendar day, not a
snack.  The calendar day of a record is abstracted by `dayOf` (the embedding
of `isSameDay (new Date (r.startTime)) d`). -/
def qualifiesOnDay (dayOf : FeedRecord → Int) (d : Int) (r : FeedRecord) :
    Bool :=
  bottleNonSnack r && decide (dayOf r = d)

/-- `daySum` of `chartData` (line 136): amounts of qualifying records for
one day, absent amounts contributing 0 (`r.amountMl || 0`). -/
def daySum (dayOf : FeedRecord → Int) (d : Int) (records : List FeedRecord) :
    Int :=
  ((records.filter (qualifiesOnDay dayOf d)).map
    (fun r => r.amountMl.getD 0)).sum

/-- `dayCount` of `chartData` (line 137). -/
def dayCount (dayOf : FeedRecord → Int) (d : Int)
    (records : List FeedRecord) : Nat :=
  (records.filter (qualifiesOnDay dayOf d)).length

/-- `dayAvg` of `chartData` (line 138): rounded daily average, 0 for a day
with no qualifying records. -/
def dayAvg (dayOf : FeedRecord → Int) (d : Int)
    (records : List FeedRecord) : Int :=
  if 0 < dayCount dayOf d records then
    jsRound (daySum dayOf d records) (dayCount dayOf d records : Int)
  else 0

/-- The trailing seven calendar days ending at `today`, in the order the
`for (let i = 6; i >= 0; i--)` loop visits them. -/
def weekDays (today : Int) : List Int :=
  (List.range 7).map (fun k : Nat => today - 6 + (k : Int))

/-- `totalWeekAmount` accumulated by the `chartData` loop (line 140). -/
def totalWeekAmount (dayOf : FeedRecord → Int) (today : Int)
    (records : List FeedRecord) : Int :=
  ((weekDays today).map (fun d => daySum dayOf d records)).sum

/-- `totalWeekCount` accumulated by the `chartData` loop (line 141). -/
def totalWeekCount (dayOf : FeedRecord → Int) (today : Int)
    (records : List FeedRecord) : Nat :=
  ((weekDays today).map (fun d => dayCount dayOf d records)).sum

/-- `weeklyAvg` of `chartData` (line 151): rounded average over all
qualifying feeds of the week, 0 when there are none. -/
def weeklyAvg (dayOf : FeedRecord → Int) (today : Int)
    (records : List FeedRecord) : Int :=
  if 0 < totalWeekCount dayOf today records then
    jsRound (totalWeekAmount dayOf today records)
      (totalWeekCount dayOf today records : Int)
  else 0

/-- Modelled from the spec words of C5: a qualifying event is a bottle or
pump `amountMl` event not flagged as snack, within the trailing 7 days. -/
def claimQualifies (dayOf : FeedRecord → Int) (today : Int)
    (r : FeedRecord) : Bool :=
  (decide (r.type = RecordType.bottle) || decide (r.type = RecordType.pump))
    && !(r.isSnack.getD false)
    && decide (today - 6 ≤ dayOf r) && decide (dayOf r ≤ today)

/-- Modelled from the spec words of C5: weekly average = total milliliters
divided by total qualifying-event count across the 7 days (exact at every
input used below). -/
def claimWeeklyAvg (dayOf : FeedRecord → Int) (today : Int)
    (records : List FeedRecord) : Int :=
  let q : List FeedRecord := records.filter (claimQualifies dayOf today)
  if 0 < q.length then
    ((q.map (fun r : FeedRecord => r.amountMl.getD 0)).sum).fdiv q.length
  else 0

/-- The bottle-only variant of the qualification predicate, which is what
the code actually filters on. -/
def bottleQualifies (dayOf : FeedRecord → Int) (today : Int)
    (r : FeedRecord) : Bool :=
  bottleNonSnack r && decide (today - 6 ≤ dayOf r) && decide (dayOf r ≤ today)

/-- Counterexample to C5 as stated: a single non-snack pump event of 100 ml
on the reference day is a qualifying event per the claim (weekly average
100), but the code's `chartData` filter keeps only `type === 'bottle'`
events, so its weekly average is 0. -/
theorem weekly_average_counterexample :
    weeklyAvg (fun _ => 0) 0
        [⟨"p1", RecordType.pump, "t0", "今天", none, none, none, none,
          some 100, none, none, none, none⟩] = 0
    ∧ claimWeeklyAvg (fun _ => 0) 0
        [⟨"p1", RecordType.pump, "t0", "今天", none, none, none, none,
          some 100, none, none, none, none⟩] = 100 := by
  constructor <;> decide

theorem sum_map_ite_eq_mem (x v : Int) :
    ∀ days : List Int, days.Nodup →
      ((days.map (fun d => if x = d then v else 0)).sum : Int)
        = if x ∈ days then v else 0 := by
  intro days
  induction days with
  | nil => intro _; simp
  | cons d ds ih =>
      intro hnd
      have hnd2 := (List.nodup_cons.mp hnd).2
      have hdmem := (List.nodup_cons.mp hnd).1
      by_cases hx : x = d
      · subst hx
        simp [List.map_cons, ih hnd2, hdmem]
      · simp [List.map_cons, ih hnd2, hx]

theorem weekDays_nodup (today : Int) : (weekDays today).Nodup := by
  have hinj : Function.Injective (fun k : Nat => today - 6 + (k : Int)) := by
    intro a b hab
    simp only at hab
    omega
  exact (List.nodup_range 7).map hinj

theorem mem_weekDays (today x : Int) :
    x ∈ weekDays today ↔ today - 6 ≤ x ∧ x ≤ today := by
  simp only [weekDays, List.mem_map, List.mem_range]
  constructor
  · rintro ⟨k, hk, rfl⟩
    constructor <;> omega
  · intro h
    refine ⟨(x - (today - 6)).toNat, by omega, by omega⟩

theorem totalWeekAmount_eq_filter (dayOf : FeedRecord → Int) (today : Int) :
    ∀ records : List FeedRecord,
      totalWeekAmount dayOf today records
        = ((records.filter (bottleQualifies dayOf today)).map
            (fun r => r.amountMl.getD 0)).sum := by
  intro records
  induction records with
  | nil => simp [totalWeekAmount, daySum]
  | cons r rs ih =>
      have hsplit : ∀ d : Int,
          daySum dayOf d (r :: rs)
            = (if qualifiesOnDay dayOf d r then r.amountMl.getD 0 else 0)
              + daySum dayOf d rs := by
        intro d
        by_cases hq : qualifiesOnDay dayOf d r
        · simp [daySum, List.filter_cons, hq]
        · simp [daySum, List.filter_cons, hq]
      have hmapsplit :
          ((weekDays today).map (fun d => daySum dayOf d (r :: rs))).sum
            = ((weekDays today).map (fun d =>
                (if qualifiesOnDay dayOf d r then r.amountMl.getD 0 else 0))).sum
              + ((weekDays today).map (fun d => daySum dayOf d rs)).sum := by
        rw [← List.sum_map_add]
        simp only [hsplit]
      have hind :
          ((weekDays today).map (fun d =>
              (if qualifiesOnDay dayOf d r then r.amountMl.getD 0 else 0))).sum
            = if bottleQualifies dayOf today r then r.amountMl.getD 0 else 0 := by
        by_cases hb : bottleNonSnack r
        · have hre : ∀ d : Int,
              (if qualifiesOnDay dayOf d r then r.amountMl.getD 0 else 0)
                = (if dayOf r = d then r.amountMl.getD 0 else 0) := by
            intro d
            simp [qualifiesOnDay, hb]
          simp only [hre]
          rw [sum_map_ite_eq_mem _ _ _ (weekDays_nodup today)]
          by_cases hmem : today - 6 ≤ dayOf r ∧ dayOf r ≤ today
          · have hm : dayOf r ∈ weekDays today :=
              (mem_weekDays today (dayOf r)).mpr hmem
            have hbq : bottleQualifies dayOf today r = true := by
              simp [bottleQualifies, hb, hmem.1, hmem.2]
            simp [hm, hbq]
          · have hm : dayOf r ∉ weekDays today := by
              rw [mem_weekDays]
              exact hmem
            have hbq : bottleQualifies dayOf today r = false := by
              simp [bottleQualifies, hb]
              omega
            simp [hm, hbq]
        · have h1 : ∀ d : Int, qualifiesOnDay dayOf d r = false := by
            intro d
            simp [qualifiesOnDay, hb]
          have h2 : bottleQualifies dayOf today r = false := by
            simp [bottleQualifies, hb]
          simp [h1, h2]
      show ((weekDays today).map (fun d => daySum dayOf d (r :: rs))).sum = _
      rw [hmapsplit, hind]
      rw [show ((weekDays today).map (fun d => daySum dayOf d rs)).sum
            = totalWeekAmount dayOf today rs from rfl, ih]
      by_cases hq : bottleQualifies dayOf today r
      · simp [List.filter_cons, hq]
      · simp [List.filter_cons, hq]

theorem totalWeekCount_eq_filter (dayOf : FeedRecord → Int) (today : Int) :
    ∀ records : List FeedRecord,
      (totalWeekCount dayOf today records : Int)
        = ((records.filter (bottleQualifies dayOf today)).length : Int) := by
  intro records
  induction records with
  | nil => simp [totalWeekCount, dayCount]
  | cons r rs ih =>
      have hsplit : ∀ d : Int,
          (dayCount dayOf d (r :: rs) : Int)
            = (if qualifiesOnDay dayOf d r then (1 : Int) else 0)
              + (dayCount dayOf d rs : Int) := by
        intro d
        by_cases hq : qualifiesOnDay dayOf d r
        · simp [dayCount, List.filter_cons, hq]
          omega
        · simp [dayCount, List.filter_cons, hq]
      have hcast :
          (totalWeekCount dayOf today (r :: rs) : Int)
            = ((weekDays today).map
                (fun d => (dayCount dayOf d (r :: rs) : Int))).sum := by
        rw [totalWeekCount, Nat.cast_list_sum, List.map_map]
        rfl
      have hcast2 :
          (totalWeekCount dayOf today rs : Int)
            = ((weekDays today).map
                (fun d => (dayCount dayOf d rs : Int))).sum := by
        rw [totalWeekCount, Nat.cast_list_sum, List.map_map]
        rfl
      have hmapsplit :
          ((weekDays today).map
              (fun d => (dayCount dayOf d (r :: rs) : Int))).sum
            = ((weekDays today).map (fun d =>
                (if qualifiesOnDay dayOf d r then (1 : Int) else 0))).sum
              + ((weekDays today).map
                  (fun d => (dayCount dayOf d rs : Int))).sum := by
        rw [← List.sum_map_add]
        simp only [hsplit]
      have hind :
          ((weekDays today).map (fun d =>
              (if qualifiesOnDay dayOf d r then (1 : Int) else 0))).sum
            = if bottleQualifies dayOf today r then (1 : Int) else 0 := by
        by_cases hb : bottleNonSnack r
        · have hre : ∀ d : Int,
              (if qualifiesOnDay dayOf d r then (1 : Int) else 0)
                = (if dayOf r = d then (1 : Int) else 0) := by
            intro d
            simp [qualifiesOnDay, hb]
          simp only [hre]
          rw [sum_map_ite_eq_mem _ _ _ (weekDays_nodup today)]
          by_cases hmem : today - 6 ≤ dayOf r ∧ dayOf r ≤ today
          · have hm : dayOf r ∈ weekDays today :=
              (mem_weekDays today (dayOf r)).mpr hmem
            have hbq : bottleQualifies dayOf today r = true := by
              simp [bottleQualifies, hb, hmem.1, hmem.2]
            simp [hm, hbq]
          · have hm : dayOf r ∉ weekDays today := by
              rw [mem_weekDays]
              exact hmem
            have hbq : bottleQualifies dayOf today r = false := by
              simp [bottleQualifies, hb]
              omega
            simp [hm, hbq]
        · have h1 : ∀ d : Int, qualifiesOnDay dayOf d r = false := by
            intro d
            simp [qualifiesOnDay, hb]
          have h2 : bottleQualifies dayOf today r = false := by
            simp [bottleQualifies, hb]
          simp [h1, h2]
      rw [hcast, hmapsplit, hind, ← hcast2, ih]
      by_cases hq : bottleQualifies dayOf today r
      · simp [List.filter_cons, hq]
        omega
      · simp [List.filter_cons, hq]

/-- C5 (amended): the weekly average is the rounded quotient of total
milliliters by total qualifying-event count over the trailing 7 days, where
qualifying events are non-snack bottle events (pump events are excluded by
the code's filter); a day with zero qualifying events has daily average 0;
and on the spec's example (bottle amounts 100, 120 and 80 on three days plus
one snack-flagged 500 ml bottle) the weekly average is 100. -/
theorem weekly_average (dayOf : FeedRecord → Int) (today : Int)
    (records : List FeedRecord) :
    (totalWeekAmount dayOf today records
      = ((records.filter (bottleQualifies dayOf today)).map
          (fun r => r.amountMl.getD 0)).sum)
    ∧ (totalWeekCount dayOf today records
        = (records.filter (bottleQualifies dayOf today)).length)
    ∧ (∀ d : Int, dayCount dayOf d records = 0 → dayAvg dayOf d records = 0)
    ∧ weeklyAvg (fun r =>
          if r.startTime = "d4" then 4 else if r.startTime = "d5" then 5 else 6)
        6
        [⟨"b1", RecordType.bottle, "d4", "今天", none, none, none, none,
            some 100, none, none, none, none⟩,
          ⟨"b2", RecordType.bottle, "d5", "今天", none, none, none, none,
            some 120, some false, none, none, none⟩,
          ⟨"b3", RecordType.bottle, "d6", "今天", none, none, none, none,
            some 80, none, none, none, none⟩,
          ⟨"s1", RecordType.bottle, "d4", "今天", none, none, none, none,
            some 500, some true, none, none, none⟩] = 100 := by
  refine ⟨totalWeekAmount_eq_filter dayOf today records, ?_, ?_, by decide⟩
  · have h := totalWeekCount_eq_filter dayOf today records
    exact_mod_cast h
  · intro d h
    simp [dayAvg, h]

/-- Witness for C5: the zero-qualifying-day conjunct at a concrete empty
collection. -/
theorem weekly_average_witness :
    dayAvg (fun _ => 0) 3 ([] : List FeedRecord) = 0 :=
  (weekly_average (fun _ => 0) 0 []).2.2.1 3 rfl

/-- JavaScript `Math.ceil (a / b)` for integers `a` and positive `b`:
ceiling division, written through floor division of the negation. -/
def cdiv (a b : Int) : Int :=
  -((-a).fdiv b)

/-- Embedding of the `ageLabel` computation of `GrowthView`
(`src/unnamed/part_002` lines 80-98) as a function of the signed difference
`now - birthDate` in milliseconds:
`diffDays = Math.ceil(Math.abs(diff) / 86400000)`; under 30 days it renders
days (`天大`) when `floor(diffDays / 7) < 1` and weeks (`周大`) otherwise;
from 30 days it renders `months = floor(diffDays / 30.44)` months and
`floor((diffDays - months * 30.44) / 7)` remainder weeks, the fractional
constant 30.44 being handled exactly by scaling by 100. -/
def ageLabel (diffMs : Int) : String :=
  let diffDays : Int := cdiv (Int.ofNat diffMs.natAbs) 86400000
  if diffDays < 30 then
    let weeks : Int := diffDays.fdiv 7
    if weeks < 1 then toString diffDays ++ "天大"
    else toString weeks ++ "周大"
  else
    let months : Int := (diffDays * 100).fdiv 3044
    let weeks : Int := (diffDays * 100 - months * 3044).fdiv 700
    toString months ++ "个月"
      ++ (if 0 < weeks then toString weeks ++ "周" else "") ++ "大"

/-- Modelled from the spec words of C6, parametrized by the day count: under
7 days render days, from 7 to 29 days render weeks, from 30 days render
months (`floor(days / 30.44)`) plus remainder weeks
(`floor((days - months * 30.44) / 7)`). -/
def claimAgeLabel (days : Int) : String :=
  if days < 7 then toString days ++ "天大"
  else if days < 30 then toString (days.fdiv 7) ++ "周大"
  else
    let months : Int := (days * 100).fdiv 3044
    let weeks : Int := (days * 100 - months * 3044).fdiv 700
    toString months ++ "个月"
      ++ (if 0 < weeks then toString weeks ++ "周" else "") ++ "大"

/-- Modelled from the spec words of C6: the claim computes the label from
the elapsed whole days, i.e. the floor of the elapsed time in days. -/
def claimAgeLabelFloorDays (diffMs : Int) : String :=
  claimAgeLabel (diffMs.fdiv 86400000)

/-- Counterexample to C6 as stated: 6 days and 1 hour after birth the
elapsed whole days are 6, so the claim renders `6天大`, but the code takes
the ceiling (7 days) and renders `1周大`. -/
theorem age_label_counterexample :
    ageLabel (6 * 86400000 + 3600000) = "1周大"
    ∧ claimAgeLabelFloorDays (6 * 86400000 + 3600000) = "6天大" := by
  constructor <;> decide

theorem cdiv_natAbs_nonneg (diffMs : Int) :
    0 ≤ cdiv (Int.ofNat diffMs.natAbs) 86400000 := by
  rw [cdiv, Int.fdiv_eq_ediv _ (by norm_num)]
  have h0 : 0 ≤ Int.ofNat diffMs.natAbs := Int.ofNat_nonneg _
  omega

/-- C6 (amended): the age label is computed from the rounded-up day count
`ceil((now - birth) / one day)` (any started day counts in full, rather
than the elapsed whole days): under 30 days it renders days when under 7
days and weeks from 7 days, and from 30 days it renders months plus
remainder weeks with `months = floor(days / 30.44)` and remainder weeks
`floor((days - months * 30.44) / 7)`; a birth date exactly 10 days before
now yields `1周大` and exactly 95 days yields 3 months. -/
theorem age_label (diffMs : Int) :
    ageLabel diffMs
      = claimAgeLabel (cdiv (Int.ofNat diffMs.natAbs) 86400000)
    ∧ ageLabel (10 * 86400000) = "1周大"
    ∧ ((cdiv (Int.ofNat ((95 : Int) * 86400000).natAbs) 86400000) * 100).fdiv
        3044 = 3
    ∧ ageLabel (95 * 86400000) = "3个月大" := by
  refine ⟨?_, by decide, by decide, by decide⟩
  have key : ∀ d : Int, 0 ≤ d →
      (if d < 30 then
        if d.fdiv 7 < 1 then toString d ++ "天大"
        else toString (d.fdiv 7) ++ "周大"
      else
        toString ((d * 100).fdiv 3044) ++ "个月"
          ++ (if 0 < (d * 100 - ((d * 100).fdiv 3044) * 3044).fdiv 700 then
                toString ((d * 100 - ((d * 100).fdiv 3044) * 3044).fdiv 700)
                  ++ "周"
              else "") ++ "大")
        = claimAgeLabel d := by
    intro d hd
    by_cases h30 : d < 30
    · by_cases h7 : d < 7
      · have hw : d.fdiv 7 < 1 := by
          rw [Int.fdiv_eq_ediv _ (by norm_num)]
          omega
        simp [claimAgeLabel, h30, h7, hw]
      · have hw : ¬ d.fdiv 7 < 1 := by
          rw [Int.fdiv_eq_ediv _ (by norm_num)]
          omega
        simp [claimAgeLabel, h30, h7, hw]
    · have h7 : ¬ d < 7 := by omega
      simp [claimAgeLabel, h30, h7]
  have h := key _ (cdiv_natAbs_nonneg diffMs)
  simpa [ageLabel] using h

/-- Growth metric kind (`services/database.ts`). -/
inductive MetricType where
  | weight
  | height
  | head
deriving DecidableEq, Repr

/-- Embedding of the `GrowthLog` shape of `services/database.ts`. -/
structure GrowthLog where
  id : String
  type : MetricType
  value : Int
  date : String
deriving DecidableEq, Repr

/-- The two in-memory entity collections relevant to a principal switch:
the feed-record collection of `RecordsProvider` (`src/App.tsx`) and the
growth-log collection of `GrowthView` (`src/unnamed/part_002`). -/
structure AppCollections where
  feedRecords : List FeedRecord
  growthLogs : List GrowthLog
deriving DecidableEq, Repr

/-- Synchronous phase of the `RecordsProvider` load effect on a principal
change (`src/App.tsx` lines 37-46): the collection is cleared before any
fetch for the new principal settles (`setRecords([])`). -/
def recordsProviderOnUserChangeSync (c : AppCollections) : AppCollections :=
  { c with feedRecords := [] }

/-- Resolution phase of the `RecordsProvider` load effect (lines 48-58):
the fetched data replaces the collection only when non-empty. -/
def recordsProviderLoadResolve (fetched : List FeedRecord)
    (c : AppCollections) : AppCollections :=
  if 0 < fetched.length then { c with feedRecords := fetched } else c

/-- Resolution of the `GrowthView` load effect on mount
(`src/unnamed/part_002` lines 105-126): the fetched growth logs replace the
collection only when non-empty. -/
def growthViewOnMount (fetched : List GrowthLog) (c : AppCollections) :
    AppCollections :=
  if 0 < fetched.length then { c with growthLogs := fetched } else c

/-- Reaction of a mounted `GrowthView` to a principal change: its load
effect has an empty dependency list (`useEffect(..., [])`, line 126), so it
never re-runs and the growth-log collection is left untouched. -/
def growthViewOnUserChange (c : AppCollections) : AppCollections :=
  c

/-- Principal A's persisted growth logs in the C9 scenario. -/
def growthOfA : List GrowthLog :=
  [⟨"g1", MetricType.weight, 6, "2024-03-01"⟩,
    ⟨"g2", MetricType.height, 61, "2024-03-01"⟩]

/-- Principal A's two persisted feed records in the C9 scenario. -/
def feedsOfA : List FeedRecord :=
  [⟨"a1", RecordType.bottle, "t1", "今天", none, none, none, none, some 90,
      none, none, none, none⟩,
    ⟨"a2", RecordType.diaper, "t2", "今天", none, none, none, none, none,
      none, some DiaperType.wet, none, none⟩]

/-- Collections after principal A signs in and the growth view mounts:
A's feed records and growth logs are loaded. -/
def collectionsUnderA : AppCollections :=
  growthViewOnMount growthOfA
    (recordsProviderLoadResolve feedsOfA
      (recordsProviderOnUserChangeSync ⟨[], []⟩))

/-- Synchronous phase of switching from A to principal B. -/
def afterSwitchToBSync : AppCollections :=
  recordsProviderOnUserChangeSync collectionsUnderA

/-- Collections once the switch to B has settled: B has no feed records, and
the mounted growth view's effect does not re-run. -/
def afterSwitchToB : AppCollections :=
  growthViewOnUserChange (recordsProviderLoadResolve [] afterSwitchToBSync)

/-- Collections once a switch back to A has settled. -/
def afterSwitchBackToA : AppCollections :=
  recordsProviderLoadResolve feedsOfA
    (recordsProviderOnUserChangeSync afterSwitchToB)

/-- C9 evaluation at the failing scenario: switching from principal A to B
empties the feed-record collection immediately and switching back re-fetches
A's two feed records, but the mounted growth view still holds A's growth
logs through both switches — its load effect has an empty dependency list —
so not every in-memory collection is discarded on a principal change. -/
theorem principal_switch_growth_leak :
    afterSwitchToBSync.feedRecords = []
    ∧ afterSwitchToB.growthLogs = growthOfA
    ∧ afterSwitchToB.growthLogs ≠ []
    ∧ afterSwitchBackToA.feedRecords = feedsOfA := by
  refine ⟨rfl, rfl, by decide, rfl⟩

/-- The feed record built by `handleSaveTimer` before serialization: the
`Date` objects are represented by their epoch-millisecond values. -/
structure TimerSaveRecord where
  id : String
  type : RecordType
  side : Side
  startMs : Int
  endMs : Int
  durationMinutes : Int
  durationSeconds : Int
  date : String
deriving DecidableEq, Repr

/-- Embedding of `handleSaveTimer` (`src/unnamed/part_002` lines 686-708):
nothing happens at zero elapsed seconds; otherwise a breast record is built
with `startTime = endTime - seconds * 1000`,
`durationMinutes = Math.max(1, Math.ceil(seconds / 60))`,
`durationSeconds = seconds`, the record id being `Date.now().toString()`;
then the timer is reset and the selected side flipped. -/
def handleSaveTimer (now : Int) (s : TimerState) :
    Option TimerSaveRecord × TimerState :=
  let seconds : Int := getElapsedSeconds now s
  if seconds = 0 then (none, s)
  else
    (some
      { id := toString now
        type := RecordType.breast
        side := s.selectedSide
        startMs := now - seconds * 1000
        endMs := now
        durationMinutes := max 1 (cdiv seconds 60)
        durationSeconds := seconds
        date := "今天" },
      toggleSide (resetTimer s))

/-- C10: saving the timer at elapsed seconds `s > 0` creates a breast record
on the currently selected side with `durationSeconds = s`,
`durationMinutes = ceil(s / 60)` (the `max 1` clamp is redundant for
`s > 0`, so the §3 minutes/seconds invariant holds), whose end instant minus
start instant is exactly `s` seconds; the timer is then reset (elapsed 0)
and the selected side flipped. -/
theorem save_timer_record (now : Int) (s : TimerState)
    (h : 0 < getElapsedSeconds now s) :
    (handleSaveTimer now s).1
      = some
          { id := toString now
            type := RecordType.breast
            side := s.selectedSide
            startMs := now - getElapsedSeconds now s * 1000
            endMs := now
            durationMinutes := cdiv (getElapsedSeconds now s) 60
            durationSeconds := getElapsedSeconds now s
            date := "今天" }
    ∧ ((handleSaveTimer now s).1.map (fun r => r.endMs - r.startMs))
        = some (getElapsedSeconds now s * 1000)
    ∧ (handleSaveTimer now s).2
        = ⟨false, none, 0, flipSide s.selectedSide⟩
    ∧ (∀ t : Int, getElapsedSeconds t (handleSaveTimer now s).2 = 0) := by
  have hne : getElapsedSeconds now s ≠ 0 := by omega
  have hceil : 1 ≤ cdiv (getElapsedSeconds now s) 60 := by
    rw [cdiv, Int.fdiv_eq_ediv _ (by norm_num)]
    omega
  have hmax : max 1 (cdiv (getElapsedSeconds now s) 60)
      = cdiv (getElapsedSeconds now s) 60 := max_eq_right hceil
  have hred : handleSaveTimer now s
      = (some
          { id := toString now
            type := RecordType.breast
            side := s.selectedSide
            startMs := now - getElapsedSeconds now s * 1000
            endMs := now
            durationMinutes := max 1 (cdiv (getElapsedSeconds now s) 60)
            durationSeconds := getElapsedSeconds now s
            date := "今天" },
        toggleSide (resetTimer s)) := by
    simp only [handleSaveTimer]
    rw [if_neg hne]
  refine ⟨?_, ?_, ?_, ?_⟩
  · rw [hred, hmax]
  · rw [hred]
    simp only [Option.map_some]
    show Option.some (now - (now - getElapsedSeconds now s * 1000))
      = some (getElapsedSeconds now s * 1000)
    congr 1
    omega
  · rw [hred]
    rfl
  · intro t
    rw [hred]
    rfl

/-- Witness for C10: saving a paused timer holding 90 accumulated seconds at
instant 5000 yields a 2-minute, 90-second breast record spanning exactly
90 seconds, and resets the timer. -/
theorem save_timer_record_witness :
    (handleSaveTimer 5000 (TimerState.mk false none 90 Side.left)).1
      = some
          { id := "5000"
            type := RecordType.breast
            side := Side.left
            startMs := 5000 - 90 * 1000
            endMs := 5000
            durationMinutes := cdiv 90 60
            durationSeconds := 90
            date := "今天" } :=
  (save_timer_record 5000 (TimerState.mk false none 90 Side.left)
    (by decide)).1

end BabyTracker
